import Mathlib

/-!
Verification of the keyboard/command/physics-dispatch logic of
`isaac_ws/go1_standalone.py` (class `Go1Runner` and function `main`).

The embedding models Python floats by rationals (all constants involved,
`1.8` and `1.0`, and the arithmetic performed on them are exact), Python
lists by `List ℚ`, and the `carb` keyboard event by a type/name pair.
Calls into the external `Unitree` robot object and the simulation SDK are
modelled as emitted effects.

Two pieces of Python semantics matter and are embedded faithfully:

* `self._base_command` is a Python *list* (`[0.0, 0.0, 0.0, 0]`), so the
  augmented slice assignment `self._base_command[0:3] += np.array(v)`
  executes as: copy the first three elements, *extend* that copy by the
  three elements of `v` (list `__iadd__` extends by any iterable), and
  splice the six-element result back over the first three slots — the
  list grows by three elements. By contrast
  `self._base_command[0:3] -= np.array(v)` falls back to
  `ndarray.__rsub__`, which is elementwise, so the release branch really
  decrements the first three elements.

* `__init__` sets `self._enter_toggled = 0` (the integer), and the ENTER
  press branch tests `self._enter_toggled is False` — an identity test
  that the integer `0` fails, so the branch is dead until an ENTER
  release stores the boolean `False`.
-/

set_option allowUnsafeReducibility true in
attribute [semireducible] Rat.sub Rat.mul Rat.add Rat.inv Rat.div

namespace Go1

/-- Kinds of `carb.input.KeyboardEventType` the callback distinguishes:
`KEY_PRESS`, `KEY_RELEASE`, and anything else (repeat, char, ...). -/
inductive KeyboardEventType
  | KEY_PRESS
  | KEY_RELEASE
  | OTHER
deriving DecidableEq

/-- A keyboard event: its type and the key name (`event.input.name`). -/
structure KeyboardEvent where
  type : KeyboardEventType
  name : String
deriving DecidableEq

/-- Python values the attribute `_enter_toggled` can hold: the integer
`0` (set in `__init__`), and the booleans `True`/`False` (set in the
press/release branches).  They are distinguished because the code tests
`_enter_toggled is False`, an identity test. -/
inductive EnterToggled
  | int0
  | pyTrue
  | pyFalse
deriving DecidableEq

/-- Python `_enter_toggled is False`: only the boolean `False` passes. -/
def EnterToggled.isFalse : EnterToggled → Bool
  | .pyFalse => true
  | _ => false

/-- Mutable state of a `Go1Runner` relevant to the claims:
`_base_command`, `_enter_toggled`, `_event_flag` (set in `__init__`,
lines 92-94) and `_path_follow` (set in `setup`, lines 138-141). -/
structure RunnerState where
  base_command : List ℚ
  enter_toggled : EnterToggled
  event_flag : Bool
  path_follow : Bool
deriving DecidableEq

/-- The dict `self._input_keyboard_mapping` (lines 96-115), as an
association list in source order; `1.8` is written `18/10`. -/
def input_keyboard_mapping : List (String × List ℚ) :=
  [("NUMPAD_8", [18/10, 0, 0]),
   ("UP", [18/10, 0, 0]),
   ("NUMPAD_2", [-(18/10), 0, 0]),
   ("DOWN", [-(18/10), 0, 0]),
   ("NUMPAD_6", [0, -(18/10), 0]),
   ("RIGHT", [0, -(18/10), 0]),
   ("NUMPAD_4", [0, 18/10, 0]),
   ("LEFT", [0, 18/10, 0]),
   ("NUMPAD_7", [0, 0, 1]),
   ("N", [0, 0, 1]),
   ("NUMPAD_9", [0, 0, -1]),
   ("M", [0, 0, -1])]

/-- Python `event.input.name in self._input_keyboard_mapping` together
with the subsequent lookup `self._input_keyboard_mapping[name]`. -/
def mappingLookup (k : String) : Option (List ℚ) :=
  input_keyboard_mapping.lookup k

/-- Python `base[0:3] += np.array v` where `base` is a list: the copy of
the first three elements is extended by the three elements of `v`, and
the result is spliced back over slots 0..2, so the list grows by 3. -/
def sliceAddExtend (base v : List ℚ) : List ℚ :=
  base.take 3 ++ v ++ base.drop 3

/-- Python `base[0:3] -= np.array v` where `base` is a list: numpy
elementwise subtraction on the first three elements. -/
def sliceSub (base v : List ℚ) : List ℚ :=
  (List.zipWith (fun a b => a - b) (base.take 3) v) ++ base.drop 3

/-- Lines 179-182: `if self._base_command[3] == 0: ... = 1 else: ... = 0`. -/
def toggleLastCommand (base : List ℚ) : List ℚ :=
  if base.getD 3 0 = 0 then base.set 3 1 else base.set 3 0

/-- `Go1Runner._sub_keyboard_event` (lines 162-195): returns the updated
state and the callback's return value. -/
def subKeyboardEvent (s : RunnerState) (e : KeyboardEvent) : RunnerState × Bool :=
  let s := { s with event_flag := false }
  match e.type with
  | .KEY_PRESS =>
    let s :=
      match mappingLookup e.name with
      | some v =>
          { s with base_command := sliceAddExtend s.base_command v,
                   event_flag := true }
      | none => s
    let s :=
      if e.name = "ENTER" ∧ s.enter_toggled.isFalse then
        { s with enter_toggled := .pyTrue,
                 base_command := toggleLastCommand s.base_command,
                 event_flag := true }
      else s
    (s, true)
  | .KEY_RELEASE =>
    let s :=
      match mappingLookup e.name with
      | some v =>
          { s with base_command := sliceSub s.base_command v,
                   event_flag := true }
      | none => s
    let s :=
      if e.name = "ENTER" then { s with enter_toggled := .pyFalse } else s
    (s, true)
  | .OTHER => (s, true)

/-- Calls made on the robot object from the physics callback. -/
inductive RobotCall
  | switchMode
  | advance (step_size : ℚ) (base_command : List ℚ) (path_follow : Bool)
deriving DecidableEq

/-- Whether a robot call is an `advance` call. -/
def RobotCall.isAdvance : RobotCall → Bool
  | .advance _ _ _ => true
  | _ => false

/-- Whether a robot call is a `switch_mode` call. -/
def RobotCall.isSwitch : RobotCall → Bool
  | .switchMode => true
  | _ => false

/-- `Go1Runner.on_physics_step` (lines 143-152): if `_event_flag` is set,
call `qp_controller.switch_mode()` and clear the flag, then call
`advance(step_size, self._base_command, self._path_follow)`.  Returns the
updated state and the robot calls in execution order. -/
def onPhysicsStep (s : RunnerState) (step_size : ℚ) : RunnerState × List RobotCall :=
  if s.event_flag then
    ({ s with event_flag := false },
     [RobotCall.switchMode, RobotCall.advance step_size s.base_command s.path_follow])
  else
    (s, [RobotCall.advance step_size s.base_command s.path_follow])

/-- State after `Go1Runner.__init__` (which sets `_enter_toggled = 0`,
`_base_command = [0.0, 0.0, 0.0, 0]`, `_event_flag = False`) followed by
`setup way_points` (which sets `_path_follow` to `False` iff
`way_points is None`), exactly the construction sequence of `main`. -/
def initState (way_points : Option (List (List ℚ))) : RunnerState :=
  { base_command := [0, 0, 0, 0],
    enter_toggled := .int0,
    event_flag := false,
    path_follow := way_points.isSome }

/-- Run the keyboard callback over a sequence of events. -/
def processKeys (s : RunnerState) (ks : List KeyboardEvent) : RunnerState :=
  ks.foldl (fun s e => (subKeyboardEvent s e).1) s

/-- An event of a run: a keyboard callback invocation or a physics step. -/
inductive SimEvent
  | key (e : KeyboardEvent)
  | physics (step_size : ℚ)
deriving DecidableEq

/-- One event of a run: keyboard events produce no robot calls, physics
steps produce the calls of `on_physics_step`. -/
def stepSim (s : RunnerState) : SimEvent → RunnerState × List RobotCall
  | .key e => ((subKeyboardEvent s e).1, [])
  | .physics dt => onPhysicsStep s dt

/-- Run a whole event trace, concatenating the robot calls in order. -/
def runTrace (s : RunnerState) : List SimEvent → RunnerState × List RobotCall
  | [] => (s, [])
  | ev :: rest =>
      ((runTrace (stepSim s ev).1 rest).1,
       (stepSim s ev).2 ++ (runTrace (stepSim s ev).1 rest).2)

/-- Number of `switch_mode` calls in a list of robot calls. -/
def countSwitch (cs : List RobotCall) : Nat :=
  cs.countP (fun c => c.isSwitch)

/-- Number of keyboard events of a trace that change `_base_command` at
the state in which they arrive. -/
def countChanging (s : RunnerState) : List SimEvent → Nat
  | [] => 0
  | .key e :: rest =>
      (if (subKeyboardEvent s e).1.base_command ≠ s.base_command then 1 else 0)
        + countChanging (subKeyboardEvent s e).1 rest
  | .physics dt :: rest => countChanging (onPhysicsStep s dt).1 rest

/-- Whether the last event of a keyboard-event list changes
`_base_command` at the state in which it arrives («the most recent
keyboard event since the previous physics step changed the command»). -/
def lastKeyChanged (s : RunnerState) : List KeyboardEvent → Bool
  | [] => false
  | [e] => decide ((subKeyboardEvent s e).1.base_command ≠ s.base_command)
  | e :: rest => lastKeyChanged (subKeyboardEvent s e).1 rest

/-- One record of the waypoint JSON list: an `{x, y, rad}` object. -/
structure WaypointRecord where
  x : ℚ
  y : ℚ
  rad : ℚ
deriving DecidableEq

/-- Outcome of `open(...)` / `json.load` / the record loop inside the
`try` block of `main`: the file is missing (`FileNotFoundError`), some
other exception is raised, or a list of records is obtained. -/
inductive FileOutcome
  | notFound
  | otherError
  | ok (data : List WaypointRecord)

/-- Observable effects of `main` in execution order. -/
inductive MainEffect
  | printMsg (msg : String)
  | constructRunner (physics_dt render_dt : ℚ) (way_points : Option (List (List ℚ)))
  | appUpdate
  | setupCall (way_points : Option (List (List ℚ)))
  | worldReset
  | runLoop
  | closeApp
deriving DecidableEq

/-- Whether an effect constructs a `Go1Runner`. -/
def MainEffect.isConstruct : MainEffect → Bool
  | .constructRunner _ _ _ => true
  | _ => false

/-- Whether an effect steps the simulation (a world reset or the
`run` stepping loop). -/
def MainEffect.isStep : MainEffect → Bool
  | .worldReset => true
  | .runLoop => true
  | _ => false

/-- Line 220-222: `np.array([waypoint["x"], waypoint["y"], waypoint["rad"]])`. -/
def poseOf (w : WaypointRecord) : List ℚ := [w.x, w.y, w.rad]

/-- Line 212: `physics_downtime = 1 / 400.0`. -/
def physics_downtime : ℚ := 1 / 400

/-- `main` (lines 208-246).  The argument is `None` when no `-w` option
was given, and otherwise carries the waypoint path string together with
the outcome of opening/parsing the file.  The result is the list of
effects performed, paired with `true` when an uncaught exception
propagates out of `main` (the `except` clause catches only
`FileNotFoundError`). -/
def mainModel : Option (String × FileOutcome) → List MainEffect × Bool
  | some (path, .notFound) =>
      ([.printMsg path, .printMsg "error file not found, ending", .closeApp], false)
  | some (path, .otherError) =>
      ([.printMsg path], true)
  | some (path, .ok data) =>
      ([.printMsg path,
        .constructRunner physics_downtime (16 * physics_downtime)
          (some (data.map poseOf)),
        .appUpdate,
        .setupCall (some (data.map poseOf)),
        .worldReset, .worldReset, .runLoop, .closeApp], false)
  | none =>
      ([.constructRunner physics_downtime (16 * physics_downtime) none,
        .appUpdate,
        .setupCall none,
        .worldReset, .worldReset, .runLoop, .closeApp], false)

/-- Check on one mapping vector: three elements with exactly one nonzero
component, of magnitude 1.8 on the forward axis (index 0) or the lateral
axis (index 1), or of magnitude 1.0 on the yaw axis (index 2). -/
def axisVectorCheck (v : List ℚ) : Bool :=
  v.length == 3 &&
    (decide ((v.getD 0 0 = 18/10 ∨ v.getD 0 0 = -(18/10))
        ∧ v.getD 1 0 = 0 ∧ v.getD 2 0 = 0)
     || decide (v.getD 0 0 = 0
        ∧ (v.getD 1 0 = 18/10 ∨ v.getD 1 0 = -(18/10)) ∧ v.getD 2 0 = 0)
     || decide (v.getD 0 0 = 0 ∧ v.getD 1 0 = 0
        ∧ (v.getD 2 0 = 1 ∨ v.getD 2 0 = -1)))

/-! ### Helper lemmas -/

/-- A successful association-list lookup returns one of the stored values. -/
theorem lookup_mem {α β : Type} [BEq α] (l : List (α × β)) (k : α) (v : β)
    (h : l.lookup k = some v) : v ∈ l.map Prod.snd := by
  induction l with
  | nil => simp [List.lookup] at h
  | cons kv rest ih =>
      obtain ⟨a, b⟩ := kv
      rw [List.lookup] at h
      cases hk : (k == a) with
      | true => rw [hk] at h; simp at h; simp [h]
      | false =>
          rw [hk] at h
          simp only [List.map_cons, List.mem_cons]
          exact Or.inr (ih h)

/-- Every vector stored in the keyboard mapping has three elements. -/
theorem mapping_vec_length {k : String} {v : List ℚ}
    (h : mappingLookup k = some v) : v.length = 3 := by
  have hv := lookup_mem _ _ _ h
  fin_cases hv <;> rfl

/-- A list of length at least four starts with four explicit elements. -/
theorem exists_four_of_le_length :
    ∀ (l : List ℚ), 4 ≤ l.length →
      ∃ b0 b1 b2 b3 rest, l = b0 :: b1 :: b2 :: b3 :: rest
  | [], h => by simp at h
  | [_], h => by simp at h
  | [_, _], h => by simp at h
  | [_, _, _], h => by simp at h
  | b0 :: b1 :: b2 :: b3 :: rest, _ => ⟨b0, b1, b2, b3, rest, rfl⟩

/-- Subtracting a mapping vector from the first three elements always
changes the list: every mapping vector has a nonzero component. -/
theorem sliceSub_ne_of_mapping {k : String} {v : List ℚ}
    (h : mappingLookup k = some v) (b0 b1 b2 : ℚ) (rest : List ℚ) :
    sliceSub (b0 :: b1 :: b2 :: rest) v ≠ b0 :: b1 :: b2 :: rest := by
  have hv := lookup_mem _ _ _ h
  fin_cases hv <;> simp [sliceSub, sub_eq_self]

/-- The extending press update grows the list by the vector's length. -/
theorem length_sliceAddExtend (base v : List ℚ) (h : 3 ≤ base.length) :
    (sliceAddExtend base v).length = base.length + v.length := by
  simp [sliceAddExtend]
  omega

/-- The release update preserves the length. -/
theorem length_sliceSub (base v : List ℚ) (h3 : 3 ≤ base.length)
    (hv : v.length = 3) : (sliceSub base v).length = base.length := by
  simp [sliceSub, hv]
  omega

/-- The toggle update preserves the length. -/
theorem length_toggleLastCommand (base : List ℚ) :
    (toggleLastCommand base).length = base.length := by
  unfold toggleLastCommand
  split <;> simp

/-- The keyboard callback never shrinks `_base_command` below 4 elements. -/
theorem length_subKeyboardEvent (s : RunnerState) (e : KeyboardEvent)
    (h : 4 ≤ s.base_command.length) :
    4 ≤ (subKeyboardEvent s e).1.base_command.length := by
  obtain ⟨ty, nm⟩ := e
  cases ty with
  | KEY_PRESS =>
      simp only [subKeyboardEvent]
      cases hm : mappingLookup nm with
      | none =>
          simp only [hm]
          split
          · simpa [length_toggleLastCommand] using h
          · simpa using h
      | some v =>
          simp only [hm]
          split
          · simp only [length_toggleLastCommand,
              length_sliceAddExtend s.base_command v (by omega)]
            omega
          · simp only [length_sliceAddExtend s.base_command v (by omega)]
            omega
  | KEY_RELEASE =>
      simp only [subKeyboardEvent]
      cases hm : mappingLookup nm with
      | none =>
          simp only [hm]
          split <;> simpa using h
      | some v =>
          simp only [hm]
          split <;>
            simp only [length_sliceSub s.base_command v (by omega)
              (mapping_vec_length hm)] <;> omega
  | OTHER => simpa using h

/-- The ENTER toggle always changes entry 3 of a list with 4+ elements. -/
theorem toggleLastCommand_ne (b0 b1 b2 b3 : ℚ) (rest : List ℚ) :
    toggleLastCommand (b0 :: b1 :: b2 :: b3 :: rest) ≠ b0 :: b1 :: b2 :: b3 :: rest := by
  simp only [toggleLastCommand, List.getD_cons_succ, List.getD_cons_zero]
  split_ifs with h
  · simp [List.set_cons_succ, List.set_cons_zero, h]
  · simp only [List.set_cons_succ, List.set_cons_zero, ne_eq, List.cons.injEq,
      true_and]
    intro heq
    exact h heq.1.symm

/-- The keyboard callback raises `_event_flag` exactly when it changed
`_base_command` (every branch that sets the flag really alters the
command, and the branches that do not set it leave the command alone). -/
theorem event_flag_iff_changed (s : RunnerState) (e : KeyboardEvent)
    (h4 : 4 ≤ s.base_command.length) :
    ((subKeyboardEvent s e).1.event_flag = true
      ↔ (subKeyboardEvent s e).1.base_command ≠ s.base_command) := by
  obtain ⟨b0, b1, b2, b3, rest, hb⟩ := exists_four_of_le_length _ h4
  obtain ⟨ty, nm⟩ := e
  cases ty with
  | KEY_PRESS =>
      simp only [subKeyboardEvent]
      cases hm : mappingLookup nm with
      | none =>
          simp only [hm]
          split
          · simp only [true_iff]
            rw [hb]
            exact toggleLastCommand_ne b0 b1 b2 b3 rest
          · simp
      | some v =>
          have hlen : (sliceAddExtend s.base_command v).length
              = s.base_command.length + 3 := by
            rw [length_sliceAddExtend s.base_command v (by omega),
              mapping_vec_length hm]
          simp only [hm]
          split
          · simp only [true_iff]
            intro heq
            have := congrArg List.length heq
            rw [length_toggleLastCommand, hlen] at this
            omega
          · simp only [true_iff]
            intro heq
            have := congrArg List.length heq
            rw [hlen] at this
            omega
  | KEY_RELEASE =>
      simp only [subKeyboardEvent]
      cases hm : mappingLookup nm with
      | none =>
          simp only [hm]
          split <;> simp
      | some v =>
          simp only [hm]
          split <;>
          · simp only [true_iff]
            rw [hb]
            exact sliceSub_ne_of_mapping hm b0 b1 b2 (b3 :: rest)
  | OTHER => simp [subKeyboardEvent]

/-- Processing any keyboard event list keeps at least 4 elements. -/
theorem length_processKeys (s : RunnerState) (ks : List KeyboardEvent)
    (h : 4 ≤ s.base_command.length) :
    4 ≤ (processKeys s ks).base_command.length := by
  induction ks generalizing s with
  | nil => exact h
  | cons e rest ih =>
      simp only [processKeys, List.foldl_cons] at ih ⊢
      exact ih _ (length_subKeyboardEvent s e h)

/-- The physics callback emits a `switch_mode` call exactly when the
event flag is up when the step begins. -/
theorem switchMode_mem_iff (s : RunnerState) (dt : ℚ) :
    RobotCall.switchMode ∈ (onPhysicsStep s dt).2 ↔ s.event_flag = true := by
  unfold onPhysicsStep
  cases hf : s.event_flag <;> simp

/-- After at least one keyboard event, the flag records whether the most
recent event changed the command. -/
theorem flag_eq_lastKeyChanged (s : RunnerState) (ks : List KeyboardEvent)
    (h4 : 4 ≤ s.base_command.length) (hne : ks ≠ []) :
    (processKeys s ks).event_flag = lastKeyChanged s ks := by
  induction ks generalizing s with
  | nil => exact absurd rfl hne
  | cons e rest ih =>
      cases rest with
      | nil =>
          simp only [processKeys, List.foldl_cons, List.foldl_nil, lastKeyChanged]
          have h := event_flag_iff_changed s e h4
          cases hf : (subKeyboardEvent s e).1.event_flag with
          | false =>
              have hnc : ¬ ((subKeyboardEvent s e).1.base_command ≠ s.base_command) := by
                rw [← h, hf]
                simp
              simp [hnc]
          | true =>
              have hc := h.mp hf
              simp [hc]
      | cons e2 rest2 =>
          have step : lastKeyChanged s (e :: e2 :: rest2)
              = lastKeyChanged (subKeyboardEvent s e).1 (e2 :: rest2) := rfl
          simp only [processKeys, List.foldl_cons] at ih ⊢
          rw [step]
          exact ih (subKeyboardEvent s e).1 (length_subKeyboardEvent s e h4) (by simp)

/-- The physics callback never touches `_base_command`. -/
theorem onPhysicsStep_base (s : RunnerState) (dt : ℚ) :
    (onPhysicsStep s dt).1.base_command = s.base_command := by
  unfold onPhysicsStep
  split <;> rfl

/-- The physics callback always leaves `_event_flag` lowered. -/
theorem onPhysicsStep_flag (s : RunnerState) (dt : ℚ) :
    (onPhysicsStep s dt).1.event_flag = false := by
  unfold onPhysicsStep
  split
  · rfl
  · next h => simpa using h

/-- A physics step emits one `switch_mode` call when the flag is up and
none otherwise. -/
theorem countSwitch_onPhysicsStep (s : RunnerState) (dt : ℚ) :
    countSwitch (onPhysicsStep s dt).2 = (if s.event_flag then 1 else 0) := by
  unfold onPhysicsStep
  split
  · next h => simp [countSwitch, RobotCall.isSwitch, List.countP_cons, h]
  · next h =>
      simp only [Bool.not_eq_true] at h
      simp [countSwitch, RobotCall.isSwitch, List.countP_cons, h]

/-- Each command-changing keyboard event accounts for at most one
`switch_mode` call over a whole trace. -/
theorem countSwitch_le_countChanging (tr : List SimEvent) (s : RunnerState)
    (h4 : 4 ≤ s.base_command.length) :
    countSwitch (runTrace s tr).2
      ≤ countChanging s tr + (if s.event_flag then 1 else 0) := by
  induction tr generalizing s with
  | nil => simp [runTrace, countSwitch]
  | cons ev rest ih =>
      cases ev with
      | key e =>
          have h4' := length_subKeyboardEvent s e h4
          have hL := event_flag_iff_changed s e h4
          have h1 := ih (subKeyboardEvent s e).1 h4'
          have h2 : (if (subKeyboardEvent s e).1.event_flag then 1 else 0)
              ≤ (if (subKeyboardEvent s e).1.base_command ≠ s.base_command
                  then 1 else 0) := by
            by_cases hflag : (subKeyboardEvent s e).1.event_flag = true
            · rw [if_pos hflag, if_pos (hL.mp hflag)]
            · simp [hflag]
          simp only [runTrace, stepSim, List.nil_append, countChanging]
          omega
      | physics dt =>
          have h1 := ih (onPhysicsStep s dt).1 (by rw [onPhysicsStep_base]; exact h4)
          rw [onPhysicsStep_flag] at h1
          simp only [Bool.false_eq_true, if_false] at h1
          have hsplit : countSwitch (runTrace s (SimEvent.physics dt :: rest)).2
              = countSwitch (onPhysicsStep s dt).2
                + countSwitch (runTrace (onPhysicsStep s dt).1 rest).2 := by
            simp only [runTrace, stepSim, countSwitch]
            exact List.countP_append _ _ _
          have hch : countChanging s (SimEvent.physics dt :: rest)
              = countChanging (onPhysicsStep s dt).1 rest := rfl
          rw [hsplit, hch, countSwitch_onPhysicsStep]
          cases hf : s.event_flag <;> simp [hf] <;> omega

/-- Any keyboard event other than an ENTER release keeps `_enter_toggled`
at the integer `0` it was given in `__init__`. -/
theorem enter_toggled_step (s : RunnerState) (e : KeyboardEvent)
    (h : s.enter_toggled = .int0)
    (he : ¬ (e.type = .KEY_RELEASE ∧ e.name = "ENTER")) :
    (subKeyboardEvent s e).1.enter_toggled = .int0 := by
  obtain ⟨ty, nm⟩ := e
  cases ty with
  | KEY_PRESS =>
      simp only [subKeyboardEvent]
      cases hm : mappingLookup nm <;>
        simp [hm, h, EnterToggled.isFalse]
  | KEY_RELEASE =>
      have hne : ¬ (nm = "ENTER") := fun hn => he ⟨rfl, hn⟩
      simp only [subKeyboardEvent]
      cases hm : mappingLookup nm <;>
        simp [hm, hne, h]
  | OTHER => simpa [subKeyboardEvent] using h

/-- While `_enter_toggled` is still the integer `0`, an ENTER press
leaves the whole `_base_command` unchanged (the identity test
`_enter_toggled is False` fails on the integer). -/
theorem enter_press_noop (s : RunnerState) (h : s.enter_toggled = .int0) :
    (subKeyboardEvent s ⟨.KEY_PRESS, "ENTER"⟩).1.base_command = s.base_command := by
  simp only [subKeyboardEvent,
    show mappingLookup "ENTER" = none from by decide]
  simp [h, EnterToggled.isFalse]

/-- Without any ENTER release in the history, `_enter_toggled` is still
the integer `0` set by `__init__`. -/
theorem enter_toggled_processKeys (ks : List KeyboardEvent) :
    ∀ (s : RunnerState), s.enter_toggled = .int0 →
      ks.all (fun e => !(decide (e.type = KeyboardEventType.KEY_RELEASE)
          && e.name == "ENTER")) = true →
      (processKeys s ks).enter_toggled = .int0 := by
  induction ks with
  | nil => intro s hs _; exact hs
  | cons e rest ih =>
      intro s hs hall
      rw [List.all_cons, Bool.and_eq_true] at hall
      have hne : ¬ (e.type = KeyboardEventType.KEY_RELEASE ∧ e.name = "ENTER") := by
        rintro ⟨h1, h2⟩
        rw [h1, h2] at hall
        simp at hall
      simp only [processKeys, List.foldl_cons] at ih ⊢
      exact ih (subKeyboardEvent s e).1 (enter_toggled_step s e hs hne) hall.2

/-! ### Claim theorems -/

/-- C1 (code evaluated at the failing input): the spec claims a
KEY_PRESS adds the mapping vector to elements 0..2 and the matching
KEY_RELEASE subtracts it back, restoring elements 0..2.  In the code the
press branch `base[0:3] += np.array(v)` *extends* the Python list
(inserting `v` after the first three slots) instead of incrementing, so
pressing and then releasing "UP" from the initial state leaves elements
0..2 at `[-1.8, 0, 0]`, not at their pre-press value `[0, 0, 0]`. -/
theorem c1_press_release_eval :
    ((subKeyboardEvent (subKeyboardEvent (initState none)
        ⟨KeyboardEventType.KEY_PRESS, "UP"⟩).1
        ⟨KeyboardEventType.KEY_RELEASE, "UP"⟩).1.base_command
      = [-(18/10), 0, 0, 18/10, 0, 0, 0])
    ∧ (subKeyboardEvent (subKeyboardEvent (initState none)
        ⟨KeyboardEventType.KEY_PRESS, "UP"⟩).1
        ⟨KeyboardEventType.KEY_RELEASE, "UP"⟩).1.base_command.take 3
      ≠ (initState none).base_command.take 3 := by
  decide

/-- C2 (counterexample to the claim as stated): on the physics step after
a single press of "UP", `advance` is passed the current command vector,
which has 7 elements — not the 4-element vector the claim names. -/
theorem c2_counterexample :
    (onPhysicsStep (subKeyboardEvent (initState none)
        ⟨KeyboardEventType.KEY_PRESS, "UP"⟩).1 1).2
      = [RobotCall.switchMode,
         RobotCall.advance 1 [0, 0, 0, 18/10, 0, 0, 0] false]
    ∧ ([0, 0, 0, (18:ℚ)/10, 0, 0, 0] : List ℚ).length = 7 := by
  decide

/-- C2 (amended): on every physics step, the physics callback calls the
robot's `advance` function exactly once, passing the step size, the
current base command vector (whatever its length), and the path-follow
flag. -/
theorem c2_advance_exactly_once (s : RunnerState) (dt : ℚ) :
    (onPhysicsStep s dt).2.filter RobotCall.isAdvance
      = [RobotCall.advance dt s.base_command s.path_follow] := by
  unfold onPhysicsStep
  split <;> simp [RobotCall.isAdvance]

/-- C3 (code evaluated at the failing input): element 3 of
`_base_command` is `0` after construction, and a single KEY_PRESS of the
mapped key "UP" — not an ENTER press — changes it to `1.8`, because the
press branch extends the list and shifts what sits at index 3. -/
theorem c3_fourth_element_eval :
    (initState none).base_command[3]? = some 0
    ∧ (subKeyboardEvent (initState none)
        ⟨KeyboardEventType.KEY_PRESS, "UP"⟩).1.base_command[3]?
      = some (18/10) := by
  decide

/-- C4 (code evaluated at the failing input): the base command has 4
elements and fourth element `0` after construction, but a single
KEY_PRESS of "UP" grows it to 7 elements whose element at index 3 is
`1.8`, which is neither 0 nor 1. -/
theorem c4_length_eval :
    (initState none).base_command.length = 4
    ∧ (initState none).base_command[3]? = some 0
    ∧ (subKeyboardEvent (initState none)
        ⟨KeyboardEventType.KEY_PRESS, "UP"⟩).1.base_command.length = 7
    ∧ (subKeyboardEvent (initState none)
        ⟨KeyboardEventType.KEY_PRESS, "UP"⟩).1.base_command[3]?
      = some (18/10)
    ∧ ((18 : ℚ)/10 ≠ 0 ∧ (18 : ℚ)/10 ≠ 1) := by
  decide

/-- C5: when opening the waypoint file raises `FileNotFoundError`, `main`
prints the path, prints the error message, closes the simulation app and
returns — constructing no runner and stepping nothing — and this is the
only handled failure: any other exception in the waypoint path
propagates uncaught. -/
theorem c5_file_not_found (path : String) :
    (mainModel (some (path, FileOutcome.notFound))).1
      = [MainEffect.printMsg path,
         MainEffect.printMsg "error file not found, ending",
         MainEffect.closeApp]
    ∧ (mainModel (some (path, FileOutcome.notFound))).2 = false
    ∧ (mainModel (some (path, FileOutcome.notFound))).1.all
        (fun eff => !eff.isConstruct && !eff.isStep) = true
    ∧ (mainModel (some (path, FileOutcome.otherError))).2 = true :=
  ⟨rfl, rfl, rfl, rfl⟩

/-- C6: on a successfully parsed waypoint file, `main` builds the pose
list `[x, y, rad]` per record in order, and passes that same list both
to the `Go1Runner` constructor and to `setup`; the pose list has the
same length and order as the JSON list. -/
theorem c6_waypoints (path : String) (data : List WaypointRecord) :
    (mainModel (some (path, FileOutcome.ok data))).1
      = [MainEffect.printMsg path,
         MainEffect.constructRunner physics_downtime (16 * physics_downtime)
           (some (data.map poseOf)),
         MainEffect.appUpdate,
         MainEffect.setupCall (some (data.map poseOf)),
         MainEffect.worldReset, MainEffect.worldReset,
         MainEffect.runLoop, MainEffect.closeApp]
    ∧ (data.map poseOf).length = data.length
    ∧ ∀ i : Nat, (data.map poseOf)[i]? = (data[i]?).map poseOf := by
  refine ⟨rfl, by simp, fun i => ?_⟩
  simp

/-- C7: the keyboard mapping is a fixed table of exactly 12 distinct key
names, each mapped to a 3-element vector with exactly one nonzero
component (±1.8 on the forward/lateral axes, ±1.0 on the yaw axis), and
each opposite-key pair maps to negations of each other. -/
theorem c7_mapping_table :
    input_keyboard_mapping.length = 12
    ∧ (input_keyboard_mapping.map Prod.fst).Nodup
    ∧ (input_keyboard_mapping.map Prod.fst)
      = ["NUMPAD_8", "UP", "NUMPAD_2", "DOWN", "NUMPAD_6", "RIGHT",
         "NUMPAD_4", "LEFT", "NUMPAD_7", "N", "NUMPAD_9", "M"]
    ∧ (input_keyboard_mapping.map Prod.snd).all axisVectorCheck = true
    ∧ mappingLookup "DOWN" = (mappingLookup "UP").map (List.map (fun q => -q))
    ∧ mappingLookup "NUMPAD_2"
      = (mappingLookup "NUMPAD_8").map (List.map (fun q => -q))
    ∧ mappingLookup "RIGHT" = (mappingLookup "LEFT").map (List.map (fun q => -q))
    ∧ mappingLookup "NUMPAD_6"
      = (mappingLookup "NUMPAD_4").map (List.map (fun q => -q))
    ∧ mappingLookup "M" = (mappingLookup "N").map (List.map (fun q => -q))
    ∧ mappingLookup "NUMPAD_9"
      = (mappingLookup "NUMPAD_7").map (List.map (fun q => -q)) := by
  decide

/-- C8: because `__init__` stores the integer `0` in `_enter_toggled`
and the ENTER press branch tests `_enter_toggled is False`, after any
event history containing no ENTER release the gate is still the integer
`0`, and an ENTER KEY_PRESS leaves `_base_command` (and in particular
its fourth element) unchanged; the toggle can only fire after some ENTER
KEY_RELEASE has stored the boolean `False`. -/
theorem c8_enter_gate (wp : Option (List (List ℚ))) (ks : List KeyboardEvent)
    (h : ks.all (fun e => !(decide (e.type = KeyboardEventType.KEY_RELEASE)
        && e.name == "ENTER")) = true) :
    (processKeys (initState wp) ks).enter_toggled = EnterToggled.int0
    ∧ (subKeyboardEvent (processKeys (initState wp) ks)
        ⟨KeyboardEventType.KEY_PRESS, "ENTER"⟩).1.base_command
      = (processKeys (initState wp) ks).base_command := by
  have h0 := enter_toggled_processKeys ks (initState wp) rfl h
  exact ⟨h0, enter_press_noop _ h0⟩

/-- Witness for the ENTER-gate theorem: a history consisting of one
ENTER press itself (no release) leaves the gate at the integer `0`, and
a further ENTER press still changes nothing. -/
theorem c8_enter_gate_witness :
    (processKeys (initState none)
        [⟨KeyboardEventType.KEY_PRESS, "ENTER"⟩]).enter_toggled
      = EnterToggled.int0
    ∧ (subKeyboardEvent (processKeys (initState none)
          [⟨KeyboardEventType.KEY_PRESS, "ENTER"⟩])
        ⟨KeyboardEventType.KEY_PRESS, "ENTER"⟩).1.base_command
      = (processKeys (initState none)
          [⟨KeyboardEventType.KEY_PRESS, "ENTER"⟩]).base_command :=
  c8_enter_gate none [⟨KeyboardEventType.KEY_PRESS, "ENTER"⟩] (by decide)

/-- C9 (counterexample to the claim as stated): a press of "UP" changes
the base command and raises the event flag, but a subsequent unmapped
key press ("A") lowers the flag again before the physics step, so no
`switch_mode` call happens at that step even though a command-changing
keyboard event had set the flag since the previous step. -/
theorem c9_counterexample :
    ((subKeyboardEvent (initState none)
        ⟨KeyboardEventType.KEY_PRESS, "UP"⟩).1.base_command
      ≠ (initState none).base_command
    ∧ (subKeyboardEvent (initState none)
        ⟨KeyboardEventType.KEY_PRESS, "UP"⟩).1.event_flag = true)
    ∧ RobotCall.switchMode ∉
        (onPhysicsStep (subKeyboardEvent
            (subKeyboardEvent (initState none)
              ⟨KeyboardEventType.KEY_PRESS, "UP"⟩).1
            ⟨KeyboardEventType.KEY_PRESS, "A"⟩).1 1).2 := by
  decide

/-- C9 (amended): `switch_mode` is invoked on a physics step exactly when
the most recent keyboard event since the previous physics step changed
the base command; the callback lowers the flag before advancing, and
over any trace each command-changing keyboard event accounts for at most
one `switch_mode` call. -/
theorem c9_switch_gating (s : RunnerState) (h4 : 4 ≤ s.base_command.length)
    (hf : s.event_flag = false) (ks : List KeyboardEvent) (dt : ℚ)
    (tr : List SimEvent) :
    (RobotCall.switchMode ∈ (onPhysicsStep (processKeys s ks) dt).2
      ↔ lastKeyChanged s ks = true)
    ∧ (onPhysicsStep (processKeys s ks) dt).1.event_flag = false
    ∧ countSwitch (runTrace s tr).2 ≤ countChanging s tr := by
  refine ⟨?_, onPhysicsStep_flag _ _, ?_⟩
  · rw [switchMode_mem_iff]
    cases ks with
    | nil => simp [processKeys, hf, lastKeyChanged]
    | cons e rest => rw [flag_eq_lastKeyChanged s (e :: rest) h4 (by simp)]
  · have h := countSwitch_le_countChanging tr s h4
    rw [hf] at h
    simpa using h

/-- Witness for the switch-gating theorem at a concrete input: from the
initial state, after the single command-changing press of "UP", the next
physics step performs the mode switch. -/
theorem c9_switch_gating_witness :
    (RobotCall.switchMode ∈ (onPhysicsStep (processKeys (initState none)
        [⟨KeyboardEventType.KEY_PRESS, "UP"⟩]) 1).2
      ↔ lastKeyChanged (initState none)
          [⟨KeyboardEventType.KEY_PRESS, "UP"⟩] = true)
    ∧ (onPhysicsStep (processKeys (initState none)
        [⟨KeyboardEventType.KEY_PRESS, "UP"⟩]) 1).1.event_flag = false
    ∧ countSwitch (runTrace (initState none)
        [SimEvent.key ⟨KeyboardEventType.KEY_PRESS, "UP"⟩,
         SimEvent.physics 1]).2
      ≤ countChanging (initState none)
          [SimEvent.key ⟨KeyboardEventType.KEY_PRESS, "UP"⟩,
           SimEvent.physics 1] :=
  c9_switch_gating (initState none) (by decide) (by decide)
    [⟨KeyboardEventType.KEY_PRESS, "UP"⟩] 1
    [SimEvent.key ⟨KeyboardEventType.KEY_PRESS, "UP"⟩, SimEvent.physics 1]

/-- C10: an event whose key is neither in the mapping nor ENTER, and any
event whose type is neither KEY_PRESS nor KEY_RELEASE, leaves the whole
state unchanged except that `_event_flag` is reset to `False`; and the
callback returns `True` on every event whatsoever. -/
theorem c10_frame (s : RunnerState) (e e2 : KeyboardEvent)
    (h : (mappingLookup e.name = none ∧ e.name ≠ "ENTER")
      ∨ e.type = KeyboardEventType.OTHER) :
    (subKeyboardEvent s e).1 = { s with event_flag := false }
    ∧ (subKeyboardEvent s e2).2 = true := by
  constructor
  · obtain ⟨ty, nm⟩ := e
    rcases h with ⟨hm, hn⟩ | hty
    · simp only at hm hn
      cases ty with
      | KEY_PRESS => simp [subKeyboardEvent, hm, hn]
      | KEY_RELEASE => simp [subKeyboardEvent, hm, hn]
      | OTHER => rfl
    · simp only at hty
      subst hty
      rfl
  · obtain ⟨ty2, nm2⟩ := e2
    cases ty2 <;> rfl

/-- Witness for the frame theorem: the unmapped key "A" only lowers the
flag, and even an ENTER press event gets `True` returned. -/
theorem c10_frame_witness :
    (subKeyboardEvent (initState none)
        ⟨KeyboardEventType.KEY_PRESS, "A"⟩).1
      = { initState none with event_flag := false }
    ∧ (subKeyboardEvent (initState none)
        ⟨KeyboardEventType.KEY_PRESS, "ENTER"⟩).2 = true :=
  c10_frame (initState none) ⟨KeyboardEventType.KEY_PRESS, "A"⟩
    ⟨KeyboardEventType.KEY_PRESS, "ENTER"⟩ (by decide)

end Go1
